import Mathlib

/-!
# Background notification relay: `web/firebase-messaging-sw.js`

A shallow embedding of the two callbacks registered by the service worker:

* the callback given to `messaging.onBackgroundMessage` (source lines 23-37), and
* the `notificationclick` listener (source lines 40-59).

Both callbacks only talk to the host (console, notification display, window clients).
Every host call is recorded, in program order, in the `calls` of a `Run`; the value a
callback hands back is the `result` of the `Run`.  A promise is a `Run` as well: the
calls made while its chain executes, and the value it settles with.
-/

namespace FirebaseMessagingSw

/-! ## Data model -/

/-- The `notification` record of a push payload, `{ title?: string, body?: string }`.
An omitted field reads as `undefined`, embedded as `none`. -/
structure NotificationPayload where
  title : Option String
  body : Option String
deriving DecidableEq, Repr

/-- The push payload `{ notification?: { title?, body? }, data?: {...} }`. -/
structure MessagePayload where
  notification : Option NotificationPayload
  data : Option (List (String × String))
deriving DecidableEq, Repr

/-- The options object built at source lines 27-34. -/
structure NotificationOptions where
  body : String
  icon : String
  badge : String
  tag : String
  requireInteraction : Bool
  silent : Bool
deriving DecidableEq, Repr

/-- A window client as the click callback looks at it: its `url`, and whether the
property `focus` is in the object (the test `'focus' in client`). -/
structure WindowClient where
  url : String
  hasFocus : Bool
deriving DecidableEq, Repr

/-- The notification-click event: it carries the clicked notification, named by an
identifier of the host. -/
structure NotificationClickEvent where
  notification : Nat
deriving DecidableEq, Repr

/-- The host as the two callbacks use it.  The type `ρ` is the type of the values the
host hands back (promises, window handles); the callbacks never look inside them.
`openWindow` is `none` when `clients.openWindow` is not available. -/
structure Host (ρ : Type) where
  showNotification : String → NotificationOptions → ρ
  matchAll : String → Bool → List WindowClient
  focus : Nat → ρ
  openWindow : Option (String → ρ)

/-! ## Recorded host calls -/

/-- A computation that has run: the host calls it made, in order, and its value. -/
structure Run (κ : Type) (α : Type) where
  calls : List κ
  result : α
deriving DecidableEq, Repr

/-- Calls on `clients` and on a window client.  `focus i` is `clientList[i].focus()`. -/
inductive ClientsCall where
  | matchAll (type : String) (includeUncontrolled : Bool)
  | focus (i : Nat)
  | openWindow (url : String)
deriving DecidableEq, Repr

/-- Calls made synchronously by a callback.  `waitUntil` records the promise it is
given: the run of the whole chain behind that promise. -/
inductive HostCall (ρ : Type) where
  | consoleLog (text : String) (arg : Option MessagePayload)
  | showNotification (title : String) (options : NotificationOptions)
  | notificationClose (notification : Nat)
  | waitUntil (promise : Run ClientsCall (Option ρ))
deriving DecidableEq, Repr

namespace Run

/-- A computation that makes no call. -/
def ret {κ α : Type} (a : α) : Run κ α := ⟨[], a⟩

/-- Sequencing; for promises this is `p.then(f)`, the chain settling with the value
of the promise returned by `f`. -/
def andThen {κ α β : Type} (p : Run κ α) (f : α → Run κ β) : Run κ β :=
  ⟨p.calls ++ (f p.result).calls, (f p.result).result⟩

/-- One host call handing back `a`. -/
def call {κ α : Type} (c : κ) (a : α) : Run κ α := ⟨[c], a⟩

end Run

/-! ## JavaScript operators used by the callbacks -/

/-- The expression `a || d` for `a` a string or `undefined` and `d` a string:
`undefined` and the empty string are falsy. -/
def jsOr (a : Option String) (d : String) : String :=
  match a with
  | none => d
  | some s => if s = "" then d else s

/-- The expression `o?.f`: `undefined` when `o` is absent. -/
def optChain {α β : Type} (o : Option α) (f : α → Option β) : Option β :=
  match o with
  | none => none
  | some x => f x

/-! ## The background-message callback (source lines 23-37) -/

/-- Source line 26. -/
def notificationTitle (payload : MessagePayload) : String :=
  jsOr (optChain payload.notification NotificationPayload.title) "Notification"

/-- Source lines 27-34. -/
def notificationOptions (payload : MessagePayload) : NotificationOptions :=
  { body := jsOr (optChain payload.notification NotificationPayload.body) ""
    icon := "/icons/Icon-192.png"
    badge := "/icons/Icon-192.png"
    tag := "fcm-notification"
    requireInteraction := false
    silent := false }

/-- The callback passed to `messaging.onBackgroundMessage`. -/
def onBackgroundMessage {ρ : Type} (host : Host ρ) (payload : MessagePayload) :
    Run (HostCall ρ) ρ :=
  (Run.call (.consoleLog "[firebase-messaging-sw.js] Received background message "
      (some payload)) ()).andThen fun _ =>
  Run.call (.showNotification (notificationTitle payload) (notificationOptions payload))
    (host.showNotification (notificationTitle payload) (notificationOptions payload))

/-! ## The notification-click listener (source lines 40-59) -/

/-- The body of the `then` callback (source lines 48-56), from index `i` on: `rest` is
what remains of `clientList` from position `i`.  The loop hands back `client.focus()`
at the first client that passes the test of line 50; after the loop, line 54 tests
`clients.openWindow`; falling off the end hands back `undefined`. -/
def scanClients {ρ : Type} (host : Host ρ) :
    List WindowClient → Nat → Run ClientsCall (Option ρ)
  | [], _ =>
    match host.openWindow with
    | some openWindow => Run.call (.openWindow "/") (some (openWindow "/"))
    | none => Run.ret none
  | client :: rest, i =>
    if client.url = "/" ∧ client.hasFocus = true then
      Run.call (.focus i) (some (host.focus i))
    else
      scanClients host rest (i + 1)

/-- The call `clients.matchAll({ type, includeUncontrolled })`. -/
def matchAll {ρ : Type} (host : Host ρ) (type : String) (includeUncontrolled : Bool) :
    Run ClientsCall (List WindowClient) :=
  Run.call (.matchAll type includeUncontrolled) (host.matchAll type includeUncontrolled)

/-- The promise passed to `event.waitUntil` (source lines 47-57). -/
def clickPromise {ρ : Type} (host : Host ρ) : Run ClientsCall (Option ρ) :=
  (matchAll host "window" true).andThen fun clientList => scanClients host clientList 0

/-- The `notificationclick` listener. -/
def notificationclick {ρ : Type} (host : Host ρ) (event : NotificationClickEvent) :
    Run (HostCall ρ) Unit :=
  (Run.call (.consoleLog "[firebase-messaging-sw.js] Notification click received." none)
      ()).andThen fun _ =>
  (Run.call (.notificationClose event.notification) ()).andThen fun _ =>
  Run.call (.waitUntil (clickPromise host)) ()

/-! ## Observations on recorded calls -/

/-- Whether a call is a `showNotification` request. -/
def HostCall.isShow {ρ : Type} : HostCall ρ → Bool
  | .showNotification _ _ => true
  | _ => false

/-- Whether a call closes a notification. -/
def HostCall.isClose {ρ : Type} : HostCall ρ → Bool
  | .notificationClose _ => true
  | _ => false

/-- Whether a call is `event.waitUntil`. -/
def HostCall.isWaitUntil {ρ : Type} : HostCall ρ → Bool
  | .waitUntil _ => true
  | _ => false

/-- Whether a call is a focus request. -/
def ClientsCall.isFocus : ClientsCall → Bool
  | .focus _ => true
  | _ => false

/-- Whether a call is an open-window request. -/
def ClientsCall.isOpen : ClientsCall → Bool
  | .openWindow _ => true
  | _ => false

/-- The test of source line 50. -/
def WindowClient.qualifies (client : WindowClient) : Prop :=
  client.url = "/" ∧ client.hasFocus = true

instance (client : WindowClient) : Decidable client.qualifies := by
  unfold WindowClient.qualifies; infer_instance

/-- The notification requests among recorded calls, in order: title and options. -/
def shownRequests {ρ : Type} : List (HostCall ρ) → List (String × NotificationOptions)
  | [] => []
  | .showNotification title options :: rest => (title, options) :: shownRequests rest
  | _ :: rest => shownRequests rest

/-- The notification requests one background message leads to. -/
def requested {ρ : Type} (host : Host ρ) (payload : MessagePayload) :
    List (String × NotificationOptions) :=
  shownRequests (onBackgroundMessage host payload).calls

/-- The calls on `clients` and on window clients behind one recorded call: those of the
promise given to `waitUntil`. -/
def HostCall.clientsCalls {ρ : Type} : HostCall ρ → List ClientsCall
  | .waitUntil promise => promise.calls
  | _ => []

/-- All calls on `clients` and on window clients that one click leads to, in order. -/
def windowCalls {ρ : Type} (host : Host ρ) (event : NotificationClickEvent) :
    List ClientsCall :=
  ((notificationclick host event).calls.map HostCall.clientsCalls).foldr (· ++ ·) []

/-- The values handed back by the example host: each names the request it answers. -/
inductive Answer where
  | shown (title : String) (options : NotificationOptions)
  | focused (i : Nat)
  | opened (url : String)
deriving DecidableEq, Repr

/-- A host for examples, with the given window clients and window-opening support. -/
def exampleHost (clientList : List WindowClient) (canOpen : Bool) : Host Answer where
  showNotification := Answer.shown
  matchAll := fun _ _ => clientList
  focus := Answer.focused
  openWindow := if canOpen then some Answer.opened else none

/-! ## Lemmas on the client scan -/

/-- The calls of the background callback, spelled out. -/
theorem onBackgroundMessage_calls {ρ : Type} (host : Host ρ) (payload : MessagePayload) :
    (onBackgroundMessage host payload).calls =
      [.consoleLog "[firebase-messaging-sw.js] Received background message " (some payload),
       .showNotification (notificationTitle payload) (notificationOptions payload)] :=
  rfl

/-- The single request of the background callback. -/
theorem requested_eq {ρ : Type} (host : Host ρ) (payload : MessagePayload) :
    requested host payload = [(notificationTitle payload, notificationOptions payload)] :=
  rfl

/-- The calls of the click listener, spelled out. -/
theorem notificationclick_calls {ρ : Type} (host : Host ρ) (event : NotificationClickEvent) :
    (notificationclick host event).calls =
      [.consoleLog "[firebase-messaging-sw.js] Notification click received." none,
       .notificationClose event.notification,
       .waitUntil (clickPromise host)] :=
  rfl

/-- The window calls of a click are the calls of the promise given to `waitUntil`. -/
theorem windowCalls_eq {ρ : Type} (host : Host ρ) (event : NotificationClickEvent) :
    windowCalls host event =
      .matchAll "window" true :: (scanClients host (host.matchAll "window" true) 0).calls := by
  simp [windowCalls, notificationclick_calls, HostCall.clientsCalls, clickPromise, matchAll,
    Run.andThen, Run.call]

/-- The value of the promise given to `waitUntil` is the value of the scan. -/
theorem clickPromise_result {ρ : Type} (host : Host ρ) :
    (clickPromise host).result = (scanClients host (host.matchAll "window" true) 0).result :=
  rfl

/-- The scan skips clients that fail the test of line 50. -/
theorem scanClients_skip {ρ : Type} (host : Host ρ) (before : List WindowClient)
    (rest : List WindowClient) (i : Nat) (h : ∀ c ∈ before, ¬ c.qualifies) :
    scanClients host (before ++ rest) i = scanClients host rest (i + before.length) := by
  induction before generalizing i with
  | nil => simp
  | cons c cs ih =>
    have hc : ¬ (c.url = "/" ∧ c.hasFocus = true) := h c (List.mem_cons_self _ _)
    have hcs : ∀ x ∈ cs, ¬ x.qualifies := fun x hx => h x (List.mem_cons_of_mem _ hx)
    have step : scanClients host (c :: (cs ++ rest)) i = scanClients host (cs ++ rest) (i + 1) := by
      simp only [scanClients, if_neg hc]
    rw [List.cons_append, step, ih (i + 1) hcs, List.length_cons]
    congr 1
    omega

/-- The scan stops at a client that passes the test of line 50. -/
theorem scanClients_hit {ρ : Type} (host : Host ρ) (c : WindowClient)
    (rest : List WindowClient) (i : Nat) (h : c.qualifies) :
    scanClients host (c :: rest) i = Run.call (.focus i) (some (host.focus i)) := by
  have hc : c.url = "/" ∧ c.hasFocus = true := h
  simp only [scanClients, if_pos hc]

/-- A list with a qualifying client splits at the first one. -/
theorem exists_first_qualifying (l : List WindowClient) (h : ∃ c ∈ l, c.qualifies) :
    ∃ before c rest, l = before ++ c :: rest ∧ (∀ x ∈ before, ¬ x.qualifies) ∧ c.qualifies := by
  induction l with
  | nil => simp at h
  | cons a as ih =>
    by_cases ha : a.qualifies
    · exact ⟨[], a, as, rfl, by simp, ha⟩
    · have h2 : ∃ c ∈ as, c.qualifies := by
        obtain ⟨c, hc, hq⟩ := h
        rcases List.mem_cons.mp hc with rfl | hc
        · exact absurd hq ha
        · exact ⟨c, hc, hq⟩
      obtain ⟨before, c, rest, hl, hb, hq⟩ := ih h2
      refine ⟨a :: before, c, rest, by simp [hl], ?_, hq⟩
      intro x hx
      rcases List.mem_cons.mp hx with rfl | hx
      · exact ha
      · exact hb x hx

/-- The three ways the window sequence of a click can go, with the calls made and the
value the promise given to `waitUntil` settles with. -/
theorem click_cases {ρ : Type} (host : Host ρ) (event : NotificationClickEvent) :
    (∃ before c rest, host.matchAll "window" true = before ++ c :: rest ∧
        (∀ x ∈ before, ¬ x.qualifies) ∧ c.qualifies ∧
        windowCalls host event = [.matchAll "window" true, .focus before.length] ∧
        (clickPromise host).result = some (host.focus before.length)) ∨
    ((∀ x ∈ host.matchAll "window" true, ¬ x.qualifies) ∧
        ∃ openWindow, host.openWindow = some openWindow ∧
        windowCalls host event = [.matchAll "window" true, .openWindow "/"] ∧
        (clickPromise host).result = some (openWindow "/")) ∨
    ((∀ x ∈ host.matchAll "window" true, ¬ x.qualifies) ∧ host.openWindow = none ∧
        windowCalls host event = [.matchAll "window" true] ∧
        (clickPromise host).result = none) := by
  rw [windowCalls_eq, clickPromise_result]
  by_cases h : ∃ c ∈ host.matchAll "window" true, c.qualifies
  · obtain ⟨before, c, rest, hl, hb, hq⟩ := exists_first_qualifying _ h
    refine Or.inl ⟨before, c, rest, hl, hb, hq, ?_⟩
    rw [hl, scanClients_skip host before (c :: rest) 0 hb, scanClients_hit host c rest _ hq]
    simp [Run.call]
  · have hn : ∀ x ∈ host.matchAll "window" true, ¬ x.qualifies :=
      fun x hx hq => h ⟨x, hx, hq⟩
    have hs : scanClients host (host.matchAll "window" true) 0 =
        scanClients host [] (0 + (host.matchAll "window" true).length) := by
      have := scanClients_skip host (host.matchAll "window" true) [] 0 hn
      simpa using this
    rw [hs]
    cases ho : host.openWindow with
    | none =>
      refine Or.inr (Or.inr ⟨hn, rfl, ?_⟩)
      simp [scanClients, ho, Run.ret]
    | some f =>
      refine Or.inr (Or.inl ⟨hn, f, rfl, ?_⟩)
      simp [scanClients, ho, Run.call]

/-! ## The background-message callback -/

/-- C1, as stated, fails: for the payload with notification title `""` and body
`"Server down"` the requested title is `"Notification"`, not the payload's title. -/
theorem background_empty_title_counterexample :
    requested (exampleHost [] true) ⟨some ⟨some "", some "Server down"⟩, none⟩ =
      [("Notification", ⟨"Server down", "/icons/Icon-192.png", "/icons/Icon-192.png",
        "fcm-notification", false, false⟩)] ∧
    (requested (exampleHost [] true) ⟨some ⟨some "", some "Server down"⟩, none⟩).map
      Prod.fst ≠ [""] := by
  decide

/-- C1, amended: for every payload whose notification title and body are both present,
the handler requests one notification whose `options.body` is exactly that body, for
every string value of the body and of the title; whose title is exactly the payload's
title when that title is not the empty string; and whose title is "Notification" when
that title is the empty string. -/
theorem background_title_body_exact {ρ : Type} (host : Host ρ) (title body : String)
    (data : Option (List (String × String))) :
    (requested host ⟨some ⟨some title, some body⟩, data⟩).map (fun r => r.2.body) = [body] ∧
    (title ≠ "" →
      (requested host ⟨some ⟨some title, some body⟩, data⟩).map Prod.fst = [title]) ∧
    (title = "" →
      (requested host ⟨some ⟨some title, some body⟩, data⟩).map Prod.fst =
        ["Notification"]) := by
  have hb : (if body = "" then "" else body) = body := by
    by_cases hb : body = ""
    · simp [hb]
    · simp [hb]
  refine ⟨?_, ?_, ?_⟩
  · simp [requested_eq, notificationOptions, jsOr, optChain, hb]
  · intro h
    simp [requested_eq, notificationTitle, jsOr, optChain, h]
  · intro h
    simp [requested_eq, notificationTitle, jsOr, optChain, h]

/-- The example of the spec, title "Alert" and body "Server down", requested as they
are; and the empty title with body "Disk full", requested as "Notification" with the
body unchanged. -/
theorem background_title_body_exact_witness :
    ("Alert" ≠ "" ∧
      (requested (exampleHost [] true) ⟨some ⟨some "Alert", some "Server down"⟩, none⟩).map
        Prod.fst = ["Alert"] ∧
      (requested (exampleHost [] true) ⟨some ⟨some "Alert", some "Server down"⟩, none⟩).map
        (fun r => r.2.body) = ["Server down"]) ∧
    ((requested (exampleHost [] true) ⟨some ⟨some "", some "Disk full"⟩, none⟩).map
        Prod.fst = ["Notification"] ∧
      (requested (exampleHost [] true) ⟨some ⟨some "", some "Disk full"⟩, none⟩).map
        (fun r => r.2.body) = ["Disk full"]) :=
  ⟨⟨by decide,
    (background_title_body_exact (exampleHost [] true) "Alert" "Server down" none).2.1
      (by decide),
    (background_title_body_exact (exampleHost [] true) "Alert" "Server down" none).1⟩,
   (background_title_body_exact (exampleHost [] true) "" "Disk full" none).2.2 rfl,
   (background_title_body_exact (exampleHost [] true) "" "Disk full" none).1⟩

/-- C2: when the notification title is missing (no notification object, or one without a
title) the requested title is "Notification"; when the body is missing the requested
`options.body` is `""`; and the two are independent: dropping the body leaves the title
unchanged and dropping the title leaves the body unchanged. -/
theorem background_fallbacks {ρ : Type} (host : Host ρ) (payload : MessagePayload)
    (t b : Option String) (data : Option (List (String × String))) :
    ((payload.notification = none ∨
        ∃ n, payload.notification = some n ∧ n.title = none) →
      (requested host payload).map Prod.fst = ["Notification"]) ∧
    ((payload.notification = none ∨
        ∃ n, payload.notification = some n ∧ n.body = none) →
      (requested host payload).map (fun r => r.2.body) = [""]) ∧
    (requested host ⟨some ⟨t, none⟩, data⟩).map Prod.fst =
      (requested host ⟨some ⟨t, b⟩, data⟩).map Prod.fst ∧
    (requested host ⟨some ⟨none, b⟩, data⟩).map (fun r => r.2.body) =
      (requested host ⟨some ⟨t, b⟩, data⟩).map (fun r => r.2.body) := by
  refine ⟨?_, ?_, rfl, rfl⟩
  · rintro (h | ⟨n, hn, ht⟩)
    · simp [requested_eq, notificationTitle, jsOr, optChain, h]
    · simp [requested_eq, notificationTitle, jsOr, optChain, hn, ht]
  · rintro (h | ⟨n, hn, hb⟩)
    · simp [requested_eq, notificationOptions, jsOr, optChain, h]
    · simp [requested_eq, notificationOptions, jsOr, optChain, hn, hb]

/-- The example of the spec: the payload `{}` gives the fallback title and an empty body;
a notification object with neither field gives the same. -/
theorem background_fallbacks_witness :
    (requested (exampleHost [] true) ⟨none, none⟩).map Prod.fst = ["Notification"] ∧
    (requested (exampleHost [] true) ⟨none, none⟩).map (fun r => r.2.body) = [""] :=
  ⟨(background_fallbacks (exampleHost [] true) ⟨none, none⟩ none none none).1 (Or.inl rfl),
   (background_fallbacks (exampleHost [] true) ⟨none, none⟩ none none none).2.1 (Or.inl rfl)⟩

/-- C3: whatever the payload, the one request carries tag "fcm-notification", icon and
badge "/icons/Icon-192.png", `requireInteraction = false` and `silent = false`; so any two
payloads are requested with the same tag. -/
theorem background_fixed_options {ρ : Type} (host : Host ρ) (payload other : MessagePayload) :
    (requested host payload).map
        (fun r => (r.2.tag, r.2.icon, r.2.badge, r.2.requireInteraction, r.2.silent)) =
      [("fcm-notification", "/icons/Icon-192.png", "/icons/Icon-192.png", false, false)] ∧
    (requested host payload).map (fun r => r.2.tag) =
      (requested host other).map (fun r => r.2.tag) :=
  ⟨rfl, rfl⟩

/-- C4: for every payload, with each optional field present or absent, the handler makes
exactly one `showNotification` request and hands back what the host answered to that
request. -/
theorem background_one_request {ρ : Type} (host : Host ρ) (payload : MessagePayload) :
    ((onBackgroundMessage host payload).calls.filter HostCall.isShow).length = 1 ∧
    ∃ title options,
      (onBackgroundMessage host payload).calls.filter HostCall.isShow =
        [.showNotification title options] ∧
      (onBackgroundMessage host payload).result = host.showNotification title options :=
  ⟨rfl, notificationTitle payload, notificationOptions payload, rfl, rfl⟩

/-! ## The notification-click listener -/

/-- C5, as stated, fails: with one open client whose url is exactly "/" but which has no
`focus` property, and window opening supported, the click focuses nothing and asks for a
new window. -/
theorem click_root_without_focus_counterexample :
    (∃ c ∈ (exampleHost [⟨"/", false⟩] true).matchAll "window" true, c.url = "/") ∧
    windowCalls (exampleHost [⟨"/", false⟩] true) ⟨0⟩ =
      [.matchAll "window" true, .openWindow "/"] := by
  decide

/-- C5, amended: when some open window client has url exactly "/" and has a `focus`
property, the click focuses one such client (the call is `clientList[i].focus()` for a
client at position `i` with url "/") and makes no open-window request. -/
theorem click_focuses_root_window {ρ : Type} (host : Host ρ) (event : NotificationClickEvent)
    (h : ∃ c ∈ host.matchAll "window" true, c.url = "/" ∧ c.hasFocus = true) :
    ∃ i c, (host.matchAll "window" true)[i]? = some c ∧ c.url = "/" ∧ c.hasFocus = true ∧
      windowCalls host event = [.matchAll "window" true, .focus i] ∧
      (windowCalls host event).filter ClientsCall.isOpen = [] := by
  rcases click_cases host event with ⟨before, c, rest, hl, -, hq, hw, -⟩ | ⟨hn, -⟩ | ⟨hn, -⟩
  · refine ⟨before.length, c, ?_, hq.1, hq.2, hw, ?_⟩
    · rw [hl, List.getElem?_append_right (le_refl _)]; simp
    · rw [hw]; rfl
  · obtain ⟨c, hc, hq⟩ := h
    exact absurd hq (hn c hc)
  · obtain ⟨c, hc, hq⟩ := h
    exact absurd hq (hn c hc)

/-- Two root windows open, after another page: the first root window is focused. -/
theorem click_focuses_root_window_witness :
    ∃ i c, ((exampleHost [⟨"/settings", true⟩, ⟨"/", true⟩, ⟨"/", true⟩] false).matchAll
        "window" true)[i]? = some c ∧ c.url = "/" ∧ c.hasFocus = true ∧
      windowCalls (exampleHost [⟨"/settings", true⟩, ⟨"/", true⟩, ⟨"/", true⟩] false) ⟨3⟩ =
        [.matchAll "window" true, .focus i] ∧
      (windowCalls (exampleHost [⟨"/settings", true⟩, ⟨"/", true⟩, ⟨"/", true⟩] false)
        ⟨3⟩).filter ClientsCall.isOpen = [] :=
  click_focuses_root_window _ ⟨3⟩ ⟨⟨"/", true⟩, by decide, rfl, rfl⟩

/-- C6: when no open window client has url exactly "/" and `clients.openWindow` is
available, the click makes exactly one open-window request, for "/", and no focus
request. -/
theorem click_opens_root_window {ρ : Type} (host : Host ρ) (event : NotificationClickEvent)
    (openWindow : String → ρ) (hurl : ∀ c ∈ host.matchAll "window" true, c.url ≠ "/")
    (hopen : host.openWindow = some openWindow) :
    windowCalls host event = [.matchAll "window" true, .openWindow "/"] ∧
    (windowCalls host event).filter ClientsCall.isOpen = [.openWindow "/"] ∧
    (windowCalls host event).filter ClientsCall.isFocus = [] := by
  rcases click_cases host event with ⟨before, c, rest, hl, -, hq, -, -⟩ | ⟨-, f, -, hw, -⟩ |
    ⟨-, hnone, -, -⟩
  · have hc : c ∈ host.matchAll "window" true := by rw [hl]; simp
    exact absurd hq.1 (hurl c hc)
  · rw [hw]; exact ⟨rfl, rfl, rfl⟩
  · rw [hnone] at hopen; cases hopen

/-- No root window among two open pages, window opening supported: one request for "/". -/
theorem click_opens_root_window_witness :
    windowCalls (exampleHost [⟨"/settings", true⟩, ⟨"/about", true⟩] true) ⟨3⟩ =
      [.matchAll "window" true, .openWindow "/"] ∧
    (windowCalls (exampleHost [⟨"/settings", true⟩, ⟨"/about", true⟩] true) ⟨3⟩).filter
      ClientsCall.isOpen = [.openWindow "/"] ∧
    (windowCalls (exampleHost [⟨"/settings", true⟩, ⟨"/about", true⟩] true) ⟨3⟩).filter
      ClientsCall.isFocus = [] :=
  click_opens_root_window (exampleHost [⟨"/settings", true⟩, ⟨"/about", true⟩] true) ⟨3⟩
    Answer.opened (by decide) rfl

/-- C7: for every click event and every host (any window clients, window opening
supported or not) the listener closes the clicked notification exactly once. -/
theorem click_closes_notification {ρ : Type} (host : Host ρ) (event : NotificationClickEvent) :
    (notificationclick host event).calls.filter HostCall.isClose =
      [.notificationClose event.notification] :=
  rfl

/-- C8: the window step of a click ends in exactly one of three ways: one existing client
is focused and nothing opened; one window is opened at "/" and nothing focused; nothing
is focused or opened.  The three exclude each other, and the last one happens only when
`clients.openWindow` is not available. -/
theorem click_outcome_trichotomy {ρ : Type} (host : Host ρ) (event : NotificationClickEvent) :
    (((∃ i, i < (host.matchAll "window" true).length ∧
          (windowCalls host event).filter ClientsCall.isFocus = [.focus i]) ∧
        (windowCalls host event).filter ClientsCall.isOpen = []) ∨
      ((windowCalls host event).filter ClientsCall.isFocus = [] ∧
        (windowCalls host event).filter ClientsCall.isOpen = [.openWindow "/"]) ∨
      ((windowCalls host event).filter ClientsCall.isFocus = [] ∧
        (windowCalls host event).filter ClientsCall.isOpen = [])) ∧
    ¬ (((∃ i, i < (host.matchAll "window" true).length ∧
          (windowCalls host event).filter ClientsCall.isFocus = [.focus i]) ∧
        (windowCalls host event).filter ClientsCall.isOpen = []) ∧
      ((windowCalls host event).filter ClientsCall.isFocus = [] ∧
        (windowCalls host event).filter ClientsCall.isOpen = [.openWindow "/"])) ∧
    ¬ (((∃ i, i < (host.matchAll "window" true).length ∧
          (windowCalls host event).filter ClientsCall.isFocus = [.focus i]) ∧
        (windowCalls host event).filter ClientsCall.isOpen = []) ∧
      ((windowCalls host event).filter ClientsCall.isFocus = [] ∧
        (windowCalls host event).filter ClientsCall.isOpen = [])) ∧
    ¬ (((windowCalls host event).filter ClientsCall.isFocus = [] ∧
        (windowCalls host event).filter ClientsCall.isOpen = [.openWindow "/"]) ∧
      ((windowCalls host event).filter ClientsCall.isFocus = [] ∧
        (windowCalls host event).filter ClientsCall.isOpen = [])) ∧
    (((windowCalls host event).filter ClientsCall.isFocus = [] ∧
        (windowCalls host event).filter ClientsCall.isOpen = []) →
      host.openWindow = none) := by
  rcases click_cases host event with ⟨before, c, rest, hl, -, -, hw, -⟩ | ⟨-, f, -, hw, -⟩ |
    ⟨-, hnone, hw, -⟩
  · have hlen : before.length < (host.matchAll "window" true).length := by
      rw [hl]; simp
    have hf : (windowCalls host event).filter ClientsCall.isFocus = [.focus before.length] := by
      rw [hw]; rfl
    have ho : (windowCalls host event).filter ClientsCall.isOpen = [] := by
      rw [hw]; rfl
    rw [hf, ho]
    refine ⟨Or.inl ⟨⟨before.length, hlen, rfl⟩, rfl⟩, ?_, ?_, ?_, ?_⟩ <;> simp
  · have hf : (windowCalls host event).filter ClientsCall.isFocus = [] := by
      rw [hw]; rfl
    have ho : (windowCalls host event).filter ClientsCall.isOpen = [.openWindow "/"] := by
      rw [hw]; rfl
    rw [hf, ho]
    refine ⟨Or.inr (Or.inl ⟨rfl, rfl⟩), ?_, ?_, ?_, ?_⟩ <;> simp
  · have hf : (windowCalls host event).filter ClientsCall.isFocus = [] := by
      rw [hw]; rfl
    have ho : (windowCalls host event).filter ClientsCall.isOpen = [] := by
      rw [hw]; rfl
    rw [hf, ho]
    refine ⟨Or.inr (Or.inr ⟨rfl, rfl⟩), ?_, ?_, ?_, ?_⟩ <;> simp [hnone]

/-- One open page that is not the root, window opening not supported: nothing is
focused or opened, and `clients.openWindow` is indeed absent. -/
theorem click_outcome_trichotomy_witness :
    ((windowCalls (exampleHost [⟨"/settings", true⟩] false) ⟨3⟩).filter
        ClientsCall.isFocus = [] ∧
      (windowCalls (exampleHost [⟨"/settings", true⟩] false) ⟨3⟩).filter
        ClientsCall.isOpen = []) ∧
    (exampleHost [⟨"/settings", true⟩] false).openWindow = none :=
  ⟨by decide,
   (click_outcome_trichotomy (exampleHost [⟨"/settings", true⟩] false) ⟨3⟩).2.2.2.2
     (by decide)⟩

/-- C9: the listener calls `event.waitUntil` exactly once, with the promise of the whole
window sequence: its other calls are the trace and the close, every call on `clients` or
on a window client is a call of that promise, and the promise settles with the value of
the focus or open-window request (or with `undefined` when neither is made). -/
theorem click_waits_for_window_sequence {ρ : Type} (host : Host ρ)
    (event : NotificationClickEvent) :
    (notificationclick host event).calls.filter HostCall.isWaitUntil =
      [.waitUntil (clickPromise host)] ∧
    (notificationclick host event).calls.filter (fun c => !c.isWaitUntil) =
      [.consoleLog "[firebase-messaging-sw.js] Notification click received." none,
       .notificationClose event.notification] ∧
    windowCalls host event = (clickPromise host).calls ∧
    ((∃ i, (clickPromise host).calls = [.matchAll "window" true, .focus i] ∧
        (clickPromise host).result = some (host.focus i)) ∨
      (∃ openWindow, host.openWindow = some openWindow ∧
        (clickPromise host).calls = [.matchAll "window" true, .openWindow "/"] ∧
        (clickPromise host).result = some (openWindow "/")) ∨
      ((clickPromise host).calls = [.matchAll "window" true] ∧
        (clickPromise host).result = none)) := by
  have hw : windowCalls host event = (clickPromise host).calls := by
    simp [windowCalls, notificationclick_calls, HostCall.clientsCalls]
  refine ⟨rfl, rfl, hw, ?_⟩
  rw [← hw]
  rcases click_cases host event with ⟨before, -, -, -, -, -, h, hr⟩ | ⟨-, f, hf, h, hr⟩ |
    ⟨-, -, h, hr⟩
  · exact Or.inl ⟨before.length, h, hr⟩
  · exact Or.inr (Or.inl ⟨f, hf, h, hr⟩)
  · exact Or.inr (Or.inr ⟨h, hr⟩)

/-- C10: when the first client passing the test of line 50 is at position `before.length`
(whatever follows it, qualifying or not), the click makes exactly one focus request, for
that client, and then stops: no other position receives a focus request. -/
theorem click_focuses_first_only {ρ : Type} (host : Host ρ) (event : NotificationClickEvent)
    (before rest : List WindowClient) (c : WindowClient)
    (hl : host.matchAll "window" true = before ++ c :: rest)
    (hb : ∀ x ∈ before, ¬ (x.url = "/" ∧ x.hasFocus = true))
    (hc : c.url = "/" ∧ c.hasFocus = true) :
    windowCalls host event = [.matchAll "window" true, .focus before.length] ∧
    ((windowCalls host event).filter ClientsCall.isFocus).length = 1 ∧
    ∀ j, j ≠ before.length → ClientsCall.focus j ∉ windowCalls host event := by
  have hw : windowCalls host event = [.matchAll "window" true, .focus before.length] := by
    rw [windowCalls_eq, hl, scanClients_skip host before (c :: rest) 0 hb,
      scanClients_hit host c rest _ hc]
    simp [Run.call]
  rw [hw]
  refine ⟨rfl, rfl, ?_⟩
  intro j hj hmem
  simp at hmem
  exact hj hmem

/-- Three clients qualify, after one that does not: only position 1 is focused. -/
theorem click_focuses_first_only_witness :
    windowCalls (exampleHost [⟨"/", false⟩, ⟨"/", true⟩, ⟨"/", true⟩, ⟨"/", true⟩] true) ⟨3⟩ =
      [.matchAll "window" true, .focus 1] ∧
    ((windowCalls (exampleHost [⟨"/", false⟩, ⟨"/", true⟩, ⟨"/", true⟩, ⟨"/", true⟩] true)
      ⟨3⟩).filter ClientsCall.isFocus).length = 1 ∧
    ClientsCall.focus 2 ∉
      windowCalls (exampleHost [⟨"/", false⟩, ⟨"/", true⟩, ⟨"/", true⟩, ⟨"/", true⟩] true) ⟨3⟩ :=
  have h := click_focuses_first_only
    (exampleHost [⟨"/", false⟩, ⟨"/", true⟩, ⟨"/", true⟩, ⟨"/", true⟩] true) ⟨3⟩
    [⟨"/", false⟩] [⟨"/", true⟩, ⟨"/", true⟩] ⟨"/", true⟩ rfl (by decide) ⟨rfl, rfl⟩
  ⟨h.1, h.2.1, h.2.2 2 (by decide)⟩

end FirebaseMessagingSw
